import Mathlib

/-!
Verification development for the OneNote knowledge-base retrieval system
(LangChain.js + LanceDB/HNSWLib vector stores + Microsoft Graph loader).

The TypeScript sources are shallowly embedded as pure Lean functions:
stateful classes become explicit state records, asynchronous effectful
collaborators (embedding providers, the Graph API) become function
parameters, and fallible operations return `Except` or carry an explicit
error field.  All definitions follow the source files
`src/vectorstore/lancedb-store.ts`, `src/chains/qa-chain.ts`,
`src/loaders/onenote-loader.ts` and `src/config/settings.ts`.
-/

set_option maxRecDepth 40000

/-- Embedding vectors; the numeric content is irrelevant to the properties
proved here, so components are integers. -/
abbrev Vec := List Int

/-- A LangChain `Document`: page content plus a metadata mapping
(modelled as an association list of string pairs). -/
structure Doc where
  pageContent : String
  metadata : List (String × String)
deriving DecidableEq, Repr

/-- A row of the LanceDB table, as built in `addDocuments`
(`{ id, text, vector, metadata }`). -/
structure VectorRecord where
  id : String
  text : String
  vector : Vec
  metadata : List (String × String)
deriving DecidableEq, Repr

/-- `settings.openai` from `src/config/settings.ts`; a missing
`OPENAI_API_KEY` environment variable loads as the empty string. -/
structure OpenAIConfig where
  apiKey : String
  modelName : String
  embeddingModel : String
deriving DecidableEq, Repr

/-- `settings.vectorstore` from `src/config/settings.ts`. -/
structure VectorStoreConfig where
  persistDirectory : String
  collectionName : String
deriving DecidableEq, Repr

/-- `settings.app` from `src/config/settings.ts`. -/
structure AppConfig where
  chunkSize : Nat
  chunkOverlap : Nat
  retrievalK : Nat
deriving DecidableEq, Repr

/-- The configuration object consumed by the core components. -/
structure Settings where
  openai : OpenAIConfig
  vectorstore : VectorStoreConfig
  app : AppConfig
deriving DecidableEq, Repr

/-- Error taxonomy of the vector-store layer: `notInitialized` models the
error thrown by `search`/`searchWithScores` when `this.table` is null, and
`embeddingProvider` models a failure raised by the embedding collaborator
inside `embedDocuments`. -/
inductive StoreError where
  | notInitialized
  | embeddingProvider (msg : String)
deriving DecidableEq, Repr

/-- The embedding collaborator's `embedDocuments`, indexed by how many
batch calls happened before (so that call-dependent behaviour such as
failing on the second round trip is expressible). -/
abbrev Embedder := Nat → List String → Except StoreError (List Vec)

/-- A deterministic, always-succeeding embedder derived from a per-text
embedding function: the model of a healthy provider. -/
def embTotal (embedOf : String → Vec) : Embedder :=
  fun _ texts => Except.ok (texts.map embedOf)

/-! ## LanceDBStore (src/vectorstore/lancedb-store.ts) -/

/-- State of a `LanceDBStore` instance together with the on-disk database
it is connected to: `dbConnected` models `this.db !== null`, `tableOpen`
models `this.table !== null`, and `storage` is the set of physical tables
of the LanceDB directory, keyed by table name. -/
structure LanceDBState where
  dbConnected : Bool
  tableOpen : Bool
  storage : List (String × List VectorRecord)
  tableName : String
  persistDirectory : String
deriving DecidableEq, Repr

/-- Look up a physical table by name. -/
def lookupTable (storage : List (String × List VectorRecord)) (name : String) :
    Option (List VectorRecord) :=
  match storage with
  | [] => none
  | (n, rows) :: rest => if n = name then some rows else lookupTable rest name

/-- Replace the named table's rows (or insert the table if absent). -/
def setTable (storage : List (String × List VectorRecord)) (name : String)
    (rows : List VectorRecord) : List (String × List VectorRecord) :=
  match storage with
  | [] => [(name, rows)]
  | (n, r) :: rest =>
    if n = name then (name, rows) :: rest else (n, r) :: setTable rest name rows

/-- Remove the named table if present. -/
def removeTable (storage : List (String × List VectorRecord)) (name : String) :
    List (String × List VectorRecord) :=
  match storage with
  | [] => []
  | (n, r) :: rest =>
    if n = name then removeTable rest name else (n, r) :: removeTable rest name

/-- Rows currently persisted under the store's table name
(`table.countRows()` counts them). -/
def rowsL (st : LanceDBState) : List VectorRecord :=
  (lookupTable st.storage st.tableName).getD []

/-- The row count of the store's physical table. -/
def rowCountL (st : LanceDBState) : Nat :=
  (rowsL st).length

/-- A `new LanceDBStore()` over a directory whose physical tables are
`storage`; no connection and no open table handle yet. -/
def newLanceDBStore (cfg : Settings) (storage : List (String × List VectorRecord)) :
    LanceDBState :=
  { dbConnected := false
    tableOpen := false
    storage := storage
    tableName := cfg.vectorstore.collectionName
    persistDirectory := cfg.vectorstore.persistDirectory }

/-- A fresh store over an empty directory. -/
def freshStoreL (cfg : Settings) : LanceDBState := newLanceDBStore cfg []

/-- `LanceDBStore.initialize`: connects to the database, and opens the
table if a table of the configured name already exists (otherwise the
table handle is left as it was and creation is deferred to the first
add). -/
def initializeL (st : LanceDBState) : LanceDBState :=
  let st := { st with dbConnected := true }
  if (lookupTable st.storage st.tableName).isSome then
    { st with tableOpen := true }
  else
    st

/-- `LanceDBStore.isReady`: `this.table !== null`. -/
def isReadyL (st : LanceDBState) : Bool :=
  st.tableOpen

/-- Fuel-driven batching loop: `for (let i = 0; i < n; i += batchSize)`
taking `documents.slice(i, i + batchSize)` at each step.  The fuel equals
the list length at the top-level call; whenever `0 < batchSize` it is
sufficient, and the degenerate `batchSize = 0` (which would loop forever
in the JavaScript source) simply exhausts the fuel. -/
def toBatchesAux (batchSize : Nat) : Nat → List Doc → List (List Doc)
  | 0, _ => []
  | _, [] => []
  | fuel + 1, d :: ds =>
    (d :: ds).take batchSize :: toBatchesAux batchSize fuel ((d :: ds).drop batchSize)

/-- The batches `documents.slice(i, i + batchSize)` visited by the loop in
`addDocuments`, in order. -/
def toBatches (batchSize : Nat) (documents : List Doc) : List (List Doc) :=
  toBatchesAux batchSize documents.length documents

/-- Build the `VectorRecord`s of one batch: record `j` pairs `batch[j]`
with `vectors[j]` (positional assignment).  Ids come from the supply
`idGen` applied to a running record counter; the source composes them
from `Date.now()` and a random suffix, which the id supply abstracts. -/
def buildRecords (idGen : Nat → String) : Nat → List Doc → List Vec → List VectorRecord
  | _, [], _ => []
  | _, _ :: _, [] => []
  | idBase, d :: ds, v :: vs =>
    { id := idGen idBase
      text := d.pageContent
      vector := v
      metadata := d.metadata } :: buildRecords idGen (idBase + 1) ds vs

/-- The embedding loop of `addDocuments`: one `embedDocuments` round trip
per batch, accumulating the records of every batch in memory.  Returns
the accumulated records, the trace of batch-embed call sizes (one entry
per call actually made), and the error that aborted the loop, if any.
On an error the loop stops and nothing assembled so far survives to a
write, exactly as the thrown exception propagates in the source. -/
def embedBatches (idGen : Nat → String) (emb : Embedder) :
    Nat → Nat → List (List Doc) → (List VectorRecord × List Nat × Option StoreError)
  | _, _, [] => ([], [], none)
  | callIdx, idBase, batch :: rest =>
    let texts := batch.map (·.pageContent)
    match emb callIdx texts with
    | Except.error e => ([], [texts.length], some e)
    | Except.ok vectors =>
      let recs := buildRecords idGen idBase batch vectors
      let tail := embedBatches idGen emb (callIdx + 1) (idBase + recs.length) rest
      (recs ++ tail.1, texts.length :: tail.2.1, tail.2.2)

/-- Outcome of an `addDocuments` call: the resulting store state, the
trace of embedding-provider batch-call sizes, and the propagated error
(if the call threw). -/
structure AddOutcome where
  state : LanceDBState
  calls : List Nat
  err : Option StoreError
deriving DecidableEq, Repr

/-- `LanceDBStore.addDocuments(documents, batchSize)`: returns at once on
an empty input; connects (via `initialize`) if not yet connected; embeds
the batches one round trip each, accumulating all records; finally writes
the accumulated records in a single operation — `createTable` when no
table handle is open, `table.add` otherwise. -/
def addDocumentsL (idGen : Nat → String) (emb : Embedder) (st : LanceDBState)
    (documents : List Doc) (batchSize : Nat) : AddOutcome :=
  if documents.isEmpty then
    { state := st, calls := [], err := none }
  else
    let st1 := if st.dbConnected then st else initializeL st
    let r := embedBatches idGen emb 0 0 (toBatches batchSize documents)
    match r.2.2 with
    | some e => { state := st1, calls := r.2.1, err := some e }
    | none =>
      if st1.tableOpen then
        { state :=
            { st1 with storage := setTable st1.storage st1.tableName (rowsL st1 ++ r.1) }
          calls := r.2.1
          err := none }
      else
        { state :=
            { st1 with
              storage := setTable st1.storage st1.tableName r.1
              tableOpen := true }
          calls := r.2.1
          err := none }

/-- Squared Euclidean distance, the store-native lower-is-closer metric
of the vector search. -/
def vecDist (a b : Vec) : Int :=
  ((a.zip b).map fun p => (p.1 - p.2) * (p.1 - p.2)).foldl (· + ·) 0

/-- Insert a scored row into a list sorted by ascending distance. -/
def insertByDist (x : VectorRecord × Int) :
    List (VectorRecord × Int) → List (VectorRecord × Int)
  | [] => [x]
  | y :: ys => if x.2 ≤ y.2 then x :: y :: ys else y :: insertByDist x ys

/-- Sort scored rows by ascending distance (insertion sort). -/
def sortByDist : List (VectorRecord × Int) → List (VectorRecord × Int)
  | [] => []
  | x :: xs => insertByDist x (sortByDist xs)

/-- `table.vectorSearch(queryVector).limit(n).toArray()`: every stored row
scored against the query vector, ordered nearest first, truncated to `n`
rows. -/
def vectorSearch (rows : List VectorRecord) (queryVector : Vec) (n : Nat) :
    List (VectorRecord × Int) :=
  (sortByDist (rows.map fun r => (r, vecDist r.vector queryVector))).take n

/-- The `k || settings.app.retrievalK` coercion: an omitted `k` is `none`,
and `0` is falsy in JavaScript, so both fall back to the configured
retrieval width. -/
def numResultsOf (cfg : Settings) (k : Option Nat) : Nat :=
  match k with
  | none => cfg.app.retrievalK
  | some n => if n = 0 then cfg.app.retrievalK else n

/-- `LanceDBStore.search(query, k)`: throws the not-initialized error when
no table handle is open; otherwise embeds the query once and maps the
nearest rows back to documents. -/
def searchL (cfg : Settings) (embedQueryOf : String → Vec) (st : LanceDBState)
    (query : String) (k : Option Nat) : Except StoreError (List Doc) :=
  if !st.tableOpen then
    Except.error StoreError.notInitialized
  else
    let numResults := numResultsOf cfg k
    let queryVector := embedQueryOf query
    let results := vectorSearch (rowsL st) queryVector numResults
    Except.ok (results.map fun p => { pageContent := p.1.text, metadata := p.1.metadata })

/-- `LanceDBStore.searchWithScores(query, k)`: identical, additionally
returning `row._distance || 0` per row. -/
def searchWithScoresL (cfg : Settings) (embedQueryOf : String → Vec)
    (st : LanceDBState) (query : String) (k : Option Nat) :
    Except StoreError (List (Doc × Int)) :=
  if !st.tableOpen then
    Except.error StoreError.notInitialized
  else
    let numResults := numResultsOf cfg k
    let queryVector := embedQueryOf query
    let results := vectorSearch (rowsL st) queryVector numResults
    Except.ok (results.map fun p =>
      ({ pageContent := p.1.text, metadata := p.1.metadata },
        if p.2 = 0 then 0 else p.2))

/-- Statistics returned by `getCollectionStats`; the count is an integer
because the HNSWLib variant reports `-1` for an unknown count. -/
structure CollectionStats where
  collectionName : String
  documentCount : Int
  persistDirectory : String
deriving DecidableEq, Repr

/-- `LanceDBStore.getCollectionStats`: row count of the open table, or 0
when no table handle is open; always succeeds. -/
def getCollectionStatsL (st : LanceDBState) : CollectionStats :=
  { collectionName := st.tableName
    documentCount := if st.tableOpen then (rowCountL st : Int) else 0
    persistDirectory := st.persistDirectory }

/-- Modelled from the spec where it exceeds src: the source line
`await this.db.dropTable(this.tableName)` delegates to the third-party
LanceDB connection, whose semantics are outside the repository; the spec
specifies deletion as idempotent ("no error if already absent"), so the
drop is modelled as removing the named table when present.  The rest is
the source: nothing happens without a connection, and the table handle is
cleared after the drop. -/
def deleteCollectionL (st : LanceDBState) : LanceDBState :=
  if st.dbConnected then
    { st with storage := removeTable st.storage st.tableName, tableOpen := false }
  else
    st

/-! ## HNSWLibStore (second store of src/vectorstore/lancedb-store.ts) -/

/-- State of an `HNSWLibStore` instance: `vectorstore` models the
in-memory `HNSWLib` object (`null` or loaded with the listed documents),
`diskStore` the saved files under the collection's store path. -/
structure HNSWState where
  vectorstore : Option (List Doc)
  diskStore : Option (List Doc)
  collectionName : String
  persistDirectory : String
deriving DecidableEq, Repr

/-- A `new HNSWLibStore()` over a directory with the given persisted
contents (or none). -/
def newHNSWStore (cfg : Settings) (disk : Option (List Doc)) : HNSWState :=
  { vectorstore := none
    diskStore := disk
    collectionName := cfg.vectorstore.collectionName
    persistDirectory := cfg.vectorstore.persistDirectory }

/-- `HNSWLibStore.initialize`: loads the saved store when one exists,
otherwise defers creation to the first add. -/
def initializeH (st : HNSWState) : HNSWState :=
  match st.diskStore with
  | some docs => { st with vectorstore := some docs }
  | none => st

/-- `HNSWLibStore.addDocuments`: no-op on an empty input; first add
creates the store from the documents, later adds append them batch by
batch (the batch loop appends every document, so its net effect on the
held documents is the concatenation); finally `save()` writes the
in-memory store to disk. -/
def addDocumentsH (st : HNSWState) (documents : List Doc) : HNSWState :=
  if documents.isEmpty then st
  else
    let vs :=
      match st.vectorstore with
      | none => documents
      | some existing => existing ++ documents
    { st with vectorstore := some vs, diskStore := some vs }

/-- `HNSWLibStore.search`: throws the not-initialized error when the
in-memory store is absent; the similarity search itself is delegated to
the HNSWLib collaborator, abstracted by `searchOf`. -/
def searchH (searchOf : List Doc → String → Nat → List Doc) (cfg : Settings)
    (st : HNSWState) (query : String) (k : Option Nat) :
    Except StoreError (List Doc) :=
  match st.vectorstore with
  | none => Except.error StoreError.notInitialized
  | some docs => Except.ok (searchOf docs query (numResultsOf cfg k))

/-- `HNSWLibStore.getCollectionStats`: always succeeds; the count is `-1`
(unknown) when a store is loaded, because HNSWLib exposes no row count,
and `0` otherwise. -/
def getCollectionStatsH (st : HNSWState) : CollectionStats :=
  { collectionName := st.collectionName
    documentCount := if st.vectorstore.isSome then -1 else 0
    persistDirectory := st.persistDirectory }

/-- `HNSWLibStore.deleteCollection`: removes the persisted files when
present (no error when absent) and clears the in-memory store. -/
def deleteCollectionH (st : HNSWState) : HNSWState :=
  { st with diskStore := none, vectorstore := none }

/-- `HNSWLibStore.isReady`. -/
def isReadyH (st : HNSWState) : Bool :=
  st.vectorstore.isSome

/-! ## QAChain (src/chains/qa-chain.ts) -/

/-- Errors of the answering layer: `notConfigured` models the exception
thrown for a missing `OPENAI_API_KEY`, the other two the unsupported
LLM-type exceptions of `createLLM`. -/
inductive QAError where
  | notConfigured
  | ollamaUnsupported
deriving DecidableEq, Repr

/-- The LLM type selector of the `QAChain` constructor. -/
inductive LLMType where
  | openai
  | ollama
deriving DecidableEq, Repr

/-- The constructed chat-model binding (configuration captured by
`new ChatOpenAI(...)`). -/
structure LLMBinding where
  apiKey : String
  modelName : String
  temperature : Int
deriving DecidableEq, Repr

/-- `QAChain.createLLM`: for the OpenAI type, fails when the configured
API key is absent (empty string is falsy), otherwise builds the binding;
the Ollama branch always fails (unsupported). -/
def createLLM (cfg : Settings) (llmType : LLMType) (modelName : Option String)
    (temperature : Int) : Except QAError LLMBinding :=
  match llmType with
  | LLMType.openai =>
    if cfg.openai.apiKey = "" then
      Except.error QAError.notConfigured
    else
      Except.ok
        { apiKey := cfg.openai.apiKey
          modelName := modelName.getD cfg.openai.modelName
          temperature := temperature }
  | LLMType.ollama => Except.error QAError.ollamaUnsupported

/-- The state of a successfully constructed `QAChain`: the constructor
eagerly created the LLM binding and fixed the prompt template; the
retrieval chain is built lazily on first `ask`. -/
structure QAChainState where
  llm : LLMBinding
  promptTemplate : String
  chainBuilt : Bool
deriving DecidableEq, Repr

/-- The default grounded-answer prompt template of the source. -/
def defaultQATemplate : String :=
  "Answer only from the retrieved note context; decline when it is insufficient."

/-- `new QAChain(vectorstore, llmType, modelName, temperature, promptTemplate)`:
construction itself calls `createLLM`, so a configuration failure is
raised here, before any question is asked. -/
def qaChainNew (cfg : Settings) (llmType : LLMType) (modelName : Option String)
    (temperature : Int) (promptTemplate : Option String) :
    Except QAError QAChainState :=
  match createLLM cfg llmType modelName temperature with
  | Except.error e => Except.error e
  | Except.ok llm =>
    Except.ok
      { llm := llm
        promptTemplate := promptTemplate.getD defaultQATemplate
        chainBuilt := false }

/-- A question/answer result with optional truncated source excerpts. -/
structure QAResult where
  question : String
  answer : String
  sources : Option (List (String × List (String × String)))
deriving DecidableEq, Repr

/-- Source-excerpt truncation of `ask`: content longer than 200
characters is cut to 200 characters with an ellipsis marker. -/
def truncateContent (content : String) : String :=
  if content.length > 200 then (content.take 200) ++ "..." else content

/-- `QAChain.ask(question, returnSources)`: only reachable on a
successfully constructed chain; builds the retrieval chain if needed,
invokes the LLM collaborator (abstracted by `invokeOf`, which returns the
answer text and the retrieved source documents), and assembles the
result. -/
def qaAsk (invokeOf : QAChainState → String → String × List Doc)
    (chain : QAChainState) (question : String) (returnSources : Bool) : QAResult :=
  let chain := { chain with chainBuilt := true }
  let r := invokeOf chain question
  { question := question
    answer := r.1
    sources :=
      if returnSources then
        some (r.2.map fun d => (truncateContent d.pageContent, d.metadata))
      else
        none }

/-! ## OneNoteLoader (src/loaders/onenote-loader.ts) -/

/-- A notebook record of the Graph API (`{ id, displayName }`). -/
structure Notebook where
  id : String
  displayName : String
deriving DecidableEq, Repr

/-- A section record of the Graph API (`{ id, displayName }`). -/
structure SectionInfo where
  id : String
  displayName : String
deriving DecidableEq, Repr

/-- A page-listing record of the Graph API. -/
structure PageInfo where
  id : String
  title : String
  createdDateTime : Option String
  lastModifiedDateTime : Option String
  webUrl : Option String
deriving DecidableEq, Repr

/-- A fully loaded OneNote page. -/
structure OneNotePage where
  id : String
  title : String
  contentHtml : String
  contentText : String
  notebookName : String
  sectionName : String
  createdTime : Option String
  lastModifiedTime : Option String
  webUrl : Option String
deriving DecidableEq, Repr

/-- The external Graph/content environment of a traversal: the three list
operations, the per-page content fetch (which may fail with an API
error), and the cheerio-based HTML-to-text conversion. -/
structure GraphEnv where
  notebooks : List Notebook
  sectionsOf : String → List SectionInfo
  pagesOf : String → List PageInfo
  contentOf : String → Except String String
  htmlToText : String → String

/-- The JavaScript filter guard `if (filter && name !== filter) continue`:
an absent or empty (falsy) filter matches everything, otherwise the match
is exact and case-sensitive. -/
def matchName (filter : Option String) (name : String) : Bool :=
  match filter with
  | none => true
  | some f => if f = "" then true else name = f

/-- `OneNoteLoader.loadPage`: fetches the page content and converts it;
the only fallible step of the per-page try block is the content fetch
(and conversion), represented by the environment's `contentOf`. -/
def loadPageE (env : GraphEnv) (pi : PageInfo) (notebookName sectionName : String) :
    Except String OneNotePage :=
  match env.contentOf pi.id with
  | Except.error e => Except.error e
  | Except.ok html =>
    Except.ok
      { id := pi.id
        title := if pi.title = "" then "untitled" else pi.title
        contentHtml := html
        contentText := env.htmlToText html
        notebookName := notebookName
        sectionName := sectionName
        createdTime := pi.createdDateTime
        lastModifiedTime := pi.lastModifiedDateTime
        webUrl := pi.webUrl }

/-- The traversal order of `iterPages`: every page of every section of
every notebook that passes the filters, tagged with its notebook and
section display names. -/
def traversalInfos (env : GraphEnv) (notebookName sectionName : Option String) :
    List (String × String × PageInfo) :=
  (env.notebooks.filter fun nb => matchName notebookName nb.displayName).flatMap fun nb =>
    ((env.sectionsOf nb.id).filter fun sec => matchName sectionName sec.displayName).flatMap
      fun sec => (env.pagesOf sec.id).map fun pi => (nb.displayName, sec.displayName, pi)

/-- One step of the page loop of `iterPages`: a successfully loaded page
is yielded, a failure is logged and the loop continues. -/
def iterStep (env : GraphEnv) (acc : List OneNotePage × List String)
    (t : String × String × PageInfo) : List OneNotePage × List String :=
  match loadPageE env t.2.2 t.1 t.2.1 with
  | Except.ok p => (acc.1 ++ [p], acc.2)
  | Except.error e => (acc.1, acc.2 ++ [t.2.2.title ++ " - " ++ e])

/-- `OneNoteLoader.iterPages(notebookName, sectionName)`: the pages
yielded by the generator, in traversal order, together with the log of
recorded per-page failures. -/
def iterPages (env : GraphEnv) (notebookName sectionName : Option String) :
    List OneNotePage × List String :=
  (traversalInfos env notebookName sectionName).foldl (iterStep env) ([], [])

/-! ## Concrete fixtures used by the witness statements -/

/-- The default configuration values of `src/config/settings.ts` with no
environment overrides; in particular `OPENAI_API_KEY` is absent (empty). -/
def testSettings : Settings :=
  { openai :=
      { apiKey := ""
        modelName := "gpt-3.5-turbo"
        embeddingModel := "text-embedding-ada-002" }
    vectorstore :=
      { persistDirectory := "./data/chroma_db"
        collectionName := "onenote_collection" }
    app := { chunkSize := 1000, chunkOverlap := 200, retrievalK := 4 } }

/-- A concrete id supply standing for the timestamp-and-random-suffix
generator. -/
def idGen0 : Nat → String := fun n => "doc_" ++ toString n

/-- A concrete per-text embedding function. -/
def embedOf0 : String → Vec := fun s => [Int.ofNat s.length]

/-- A concrete query embedding. -/
def qe0 : String → Vec := fun s => [Int.ofNat s.length]

/-- An embedding provider that serves the first batch call and fails on
every later one. -/
def embFailSecond : Embedder := fun i texts =>
  if i = 0 then Except.ok (texts.map fun _ => [0])
  else Except.error (StoreError.embeddingProvider "provider down")

/-- Concrete documents. -/
def docA : Doc := { pageContent := "alpha", metadata := [] }

/-- Concrete documents. -/
def docB : Doc := { pageContent := "beta", metadata := [] }

/-- A concrete LanceDB state with an open table holding two rows. -/
def stW : LanceDBState :=
  { dbConnected := true
    tableOpen := true
    storage :=
      [("onenote_collection",
        [ { id := "doc_0", text := "alpha", vector := [5], metadata := [] },
          { id := "doc_1", text := "beta", vector := [4], metadata := [] } ])]
    tableName := "onenote_collection"
    persistDirectory := "./data/chroma_db" }

/-- A concrete HNSWLib similarity search collaborator. -/
def searchOf0 : List Doc → String → Nat → List Doc := fun docs _ n => docs.take n

/-- Concrete page listings of the witness traversal environment. -/
def pageInfo1 : PageInfo :=
  { id := "p1", title := "A", createdDateTime := none, lastModifiedDateTime := none
    webUrl := none }

/-- Concrete page listings of the witness traversal environment. -/
def pageInfo2 : PageInfo :=
  { id := "p2", title := "B", createdDateTime := none, lastModifiedDateTime := none
    webUrl := none }

/-- Concrete page listings of the witness traversal environment. -/
def pageInfo3 : PageInfo :=
  { id := "p3", title := "C", createdDateTime := none, lastModifiedDateTime := none
    webUrl := none }

/-- A concrete traversal environment with three pages in one section, the
second of which fails to fetch. -/
def cEnv : GraphEnv :=
  { notebooks := [{ id := "nb1", displayName := "Work" }]
    sectionsOf := fun _ => [{ id := "s1", displayName := "Notes" }]
    pagesOf := fun _ => [pageInfo1, pageInfo2, pageInfo3]
    contentOf := fun pid =>
      if pid = "p2" then Except.error "request failed 500"
      else Except.ok "hello"
    htmlToText := fun h => h }

/-- The third page of `cEnv` as loaded by `loadPage`. -/
def page3 : OneNotePage :=
  { id := "p3", title := "C", contentHtml := "hello", contentText := "hello"
    notebookName := "Work", sectionName := "Notes"
    createdTime := none, lastModifiedTime := none, webUrl := none }

/-! ## Helper lemmas -/

theorem lookupTable_setTable (s : List (String × List VectorRecord)) (n : String)
    (rows : List VectorRecord) : lookupTable (setTable s n rows) n = some rows := by
  induction s with
  | nil => simp [setTable, lookupTable]
  | cons hd tl ih =>
    obtain ⟨k, r⟩ := hd
    by_cases hk : k = n
    · simp [setTable, hk, lookupTable]
    · simp [setTable, hk, lookupTable, ih]

theorem lookupTable_removeTable (s : List (String × List VectorRecord)) (n : String) :
    lookupTable (removeTable s n) n = none := by
  induction s with
  | nil => simp [removeTable, lookupTable]
  | cons hd tl ih =>
    obtain ⟨k, r⟩ := hd
    by_cases hk : k = n
    · simp [removeTable, hk, ih]
    · simp [removeTable, hk, lookupTable, ih]

theorem removeTable_idem (s : List (String × List VectorRecord)) (n : String) :
    removeTable (removeTable s n) n = removeTable s n := by
  induction s with
  | nil => simp [removeTable]
  | cons hd tl ih =>
    obtain ⟨k, r⟩ := hd
    by_cases hk : k = n
    · simp [removeTable, hk, ih]
    · simp [removeTable, hk, ih]

theorem toBatchesAux_join (B : Nat) (hB : 0 < B) :
    ∀ (fuel : Nat) (xs : List Doc), xs.length ≤ fuel →
      (toBatchesAux B fuel xs).flatten = xs := by
  intro fuel
  induction fuel with
  | zero =>
    intro xs hx
    have : xs = [] := List.eq_nil_of_length_eq_zero (Nat.le_zero.mp hx)
    subst this
    simp [toBatchesAux]
  | succ fuel ih =>
    intro xs hx
    match xs with
    | [] => simp [toBatchesAux]
    | d :: ds =>
      have hdrop : ((d :: ds).drop B).length ≤ fuel := by
        rw [List.length_drop]
        simp only [List.length_cons] at hx ⊢
        omega
      have hstep : toBatchesAux B (fuel + 1) (d :: ds) =
          (d :: ds).take B :: toBatchesAux B fuel ((d :: ds).drop B) := rfl
      rw [hstep, List.flatten_cons, ih ((d :: ds).drop B) hdrop]
      exact List.take_append_drop B (d :: ds)

theorem toBatchesAux_mem_le (B : Nat) :
    ∀ (fuel : Nat) (xs : List Doc) (b : List Doc),
      b ∈ toBatchesAux B fuel xs → b.length ≤ B := by
  intro fuel
  induction fuel with
  | zero => intro xs b hb; simp [toBatchesAux] at hb
  | succ fuel ih =>
    intro xs b hb
    match xs with
    | [] => simp [toBatchesAux] at hb
    | d :: ds =>
      have hstep : toBatchesAux B (fuel + 1) (d :: ds) =
          (d :: ds).take B :: toBatchesAux B fuel ((d :: ds).drop B) := rfl
      rw [hstep] at hb
      rcases List.mem_cons.mp hb with h | h
      · subst h
        rw [List.length_take]
        exact Nat.min_le_left _ _
      · exact ih _ _ h

theorem toBatchesAux_count (B : Nat) (hB : 0 < B) :
    ∀ (fuel : Nat) (xs : List Doc), xs.length ≤ fuel →
      (toBatchesAux B fuel xs).length = (xs.length + B - 1) / B := by
  intro fuel
  induction fuel with
  | zero =>
    intro xs hx
    have : xs = [] := List.eq_nil_of_length_eq_zero (Nat.le_zero.mp hx)
    subst this
    simp only [toBatchesAux, List.length_nil]
    exact (Nat.div_eq_of_lt (by omega : 0 + B - 1 < B)).symm
  | succ fuel ih =>
    intro xs hx
    match xs with
    | [] =>
      simp only [toBatchesAux, List.length_nil]
      exact (Nat.div_eq_of_lt (by omega : 0 + B - 1 < B)).symm
    | d :: ds =>
      have hdrop : ((d :: ds).drop B).length ≤ fuel := by
        rw [List.length_drop]
        simp only [List.length_cons] at hx ⊢
        omega
      have hstep : toBatchesAux B (fuel + 1) (d :: ds) =
          (d :: ds).take B :: toBatchesAux B fuel ((d :: ds).drop B) := rfl
      rw [hstep, List.length_cons, ih _ hdrop, List.length_drop]
      have hL1 : 1 ≤ (d :: ds).length := by simp
      have hsum : (d :: ds).length + B - 1 = ((d :: ds).length - 1) + B := by omega
      rw [hsum, Nat.add_div_right _ hB]
      by_cases hLB : B ≤ (d :: ds).length
      · have heq : (d :: ds).length - B + B - 1 = (d :: ds).length - 1 := by omega
        rw [heq]
      · have h0 : (d :: ds).length - B = 0 := by omega
        rw [h0, Nat.div_eq_of_lt (by omega : 0 + B - 1 < B),
          Nat.div_eq_of_lt (by omega : (d :: ds).length - 1 < B)]

theorem buildRecords_length (idGen : Nat → String) :
    ∀ (ds : List Doc) (vs : List Vec) (idBase : Nat),
      (buildRecords idGen idBase ds vs).length = min ds.length vs.length := by
  intro ds
  induction ds with
  | nil => intro vs idBase; simp [buildRecords]
  | cons d ds ih =>
    intro vs idBase
    match vs with
    | [] => simp [buildRecords]
    | v :: vs =>
      simp only [buildRecords, List.length_cons, ih]
      omega

theorem buildRecords_map_of_map (idGen : Nat → String) (g : Doc → Vec) :
    ∀ (ds : List Doc) (idBase : Nat),
      (buildRecords idGen idBase ds (ds.map g)).map (fun r => r.text) =
        ds.map (fun d => d.pageContent) ∧
      (buildRecords idGen idBase ds (ds.map g)).map (fun r => r.vector) = ds.map g := by
  intro ds
  induction ds with
  | nil => intro idBase; simp [buildRecords]
  | cons d ds ih =>
    intro idBase
    simp only [List.map_cons, buildRecords]
    exact ⟨by simp [(ih (idBase + 1)).1], by simp [(ih (idBase + 1)).2]⟩

theorem embedBatches_embTotal (idGen : Nat → String) (embedOf : String → Vec) :
    ∀ (bs : List (List Doc)) (callIdx idBase : Nat),
      (embedBatches idGen (embTotal embedOf) callIdx idBase bs).2.2 = none ∧
      (embedBatches idGen (embTotal embedOf) callIdx idBase bs).2.1 =
        bs.map List.length ∧
      (embedBatches idGen (embTotal embedOf) callIdx idBase bs).1.map
          (fun r => r.text) = bs.flatten.map (fun d => d.pageContent) ∧
      (embedBatches idGen (embTotal embedOf) callIdx idBase bs).1.map
          (fun r => r.vector) =
        bs.flatten.map (fun d => embedOf d.pageContent) := by
  intro bs
  induction bs with
  | nil => intro callIdx idBase; simp [embedBatches]
  | cons batch rest ih =>
    intro callIdx idBase
    have hvec : (batch.map (fun d => d.pageContent)).map embedOf =
        batch.map (fun d => embedOf d.pageContent) := by
      rw [List.map_map]
      rfl
    have hstep : embedBatches idGen (embTotal embedOf) callIdx idBase (batch :: rest) =
        (buildRecords idGen idBase batch (batch.map (fun d => embedOf d.pageContent)) ++
            (embedBatches idGen (embTotal embedOf) (callIdx + 1)
              (idBase + (buildRecords idGen idBase batch
                (batch.map (fun d => embedOf d.pageContent))).length) rest).1,
          (batch.map (fun d => d.pageContent)).length ::
            (embedBatches idGen (embTotal embedOf) (callIdx + 1)
              (idBase + (buildRecords idGen idBase batch
                (batch.map (fun d => embedOf d.pageContent))).length) rest).2.1,
          (embedBatches idGen (embTotal embedOf) (callIdx + 1)
            (idBase + (buildRecords idGen idBase batch
              (batch.map (fun d => embedOf d.pageContent))).length) rest).2.2) := by
      simp only [embedBatches, embTotal, hvec]
    obtain ⟨ih1, ih2, ih3, ih4⟩ := ih (callIdx + 1)
      (idBase + (buildRecords idGen idBase batch
        (batch.map (fun d => embedOf d.pageContent))).length)
    obtain ⟨hbt, hbv⟩ := buildRecords_map_of_map idGen
      (fun d => embedOf d.pageContent) batch idBase
    refine ⟨?_, ?_, ?_, ?_⟩
    · rw [hstep]; exact ih1
    · rw [hstep]
      simp only [List.map_cons, List.length_map]
      rw [ih2]
    · rw [hstep]
      simp only [List.flatten_cons, List.map_append]
      rw [ih3, hbt]
    · rw [hstep]
      simp only [List.flatten_cons, List.map_append]
      rw [ih4, hbv]

theorem addDocumentsL_nil (idGen : Nat → String) (emb : Embedder) (st : LanceDBState)
    (B : Nat) : addDocumentsL idGen emb st [] B =
      { state := st, calls := [], err := none } := rfl

theorem addDocumentsL_eq_of_ok (idGen : Nat → String) (emb : Embedder)
    (st : LanceDBState) (docs : List Doc) (B : Nat) (hne : docs.isEmpty = false)
    (he : (embedBatches idGen emb 0 0 (toBatches B docs)).2.2 = none) :
    addDocumentsL idGen emb st docs B =
      (let st1 := if st.dbConnected then st else initializeL st
       let e := embedBatches idGen emb 0 0 (toBatches B docs)
       { state :=
           { st1 with
             storage := setTable st1.storage st1.tableName
               (if st1.tableOpen then rowsL st1 ++ e.1 else e.1)
             tableOpen := true }
         calls := e.2.1
         err := none }) := by
  simp only [addDocumentsL, hne, Bool.false_eq_true, if_false, he]
  cases hopen : (if st.dbConnected then st else initializeL st).tableOpen
  · simp [hopen]
  · simp [hopen]

theorem addDocumentsL_eq_of_err (idGen : Nat → String) (emb : Embedder)
    (st : LanceDBState) (docs : List Doc) (B : Nat) (er : StoreError)
    (hne : docs.isEmpty = false)
    (he : (embedBatches idGen emb 0 0 (toBatches B docs)).2.2 = some er) :
    addDocumentsL idGen emb st docs B =
      { state := if st.dbConnected then st else initializeL st
        calls := (embedBatches idGen emb 0 0 (toBatches B docs)).2.1
        err := some er } := by
  simp only [addDocumentsL, hne, Bool.false_eq_true, if_false, he]

theorem initializeL_storage (st : LanceDBState) : (initializeL st).storage = st.storage := by
  simp only [initializeL]
  split <;> rfl

theorem initializeL_tableName (st : LanceDBState) :
    (initializeL st).tableName = st.tableName := by
  simp only [initializeL]
  split <;> rfl

theorem initializeL_persistDirectory (st : LanceDBState) :
    (initializeL st).persistDirectory = st.persistDirectory := by
  simp only [initializeL]
  split <;> rfl

theorem rowsL_initializeL (st : LanceDBState) : rowsL (initializeL st) = rowsL st := by
  simp only [rowsL, initializeL_storage, initializeL_tableName]

theorem rowsL_setTable (st : LanceDBState) (x : List VectorRecord) :
    rowsL { st with storage := setTable st.storage st.tableName x, tableOpen := true } =
      x := by
  simp [rowsL, lookupTable_setTable]

theorem addDocumentsL_embTotal (idGen : Nat → String) (embedOf : String → Vec)
    (st : LanceDBState) (docs : List Doc) (B : Nat) (hB : 0 < B)
    (hInv : st.dbConnected = true →
      st.tableOpen = true ∨ lookupTable st.storage st.tableName = none) :
    (addDocumentsL idGen (embTotal embedOf) st docs B).err = none ∧
    (addDocumentsL idGen (embTotal embedOf) st docs B).calls =
      (toBatches B docs).map List.length ∧
    (rowsL (addDocumentsL idGen (embTotal embedOf) st docs B).state).map
        (fun r => r.text) =
      (rowsL st).map (fun r => r.text) ++ docs.map (fun d => d.pageContent) ∧
    (rowsL (addDocumentsL idGen (embTotal embedOf) st docs B).state).map
        (fun r => r.vector) =
      (rowsL st).map (fun r => r.vector) ++
        docs.map (fun d => embedOf d.pageContent) ∧
    rowCountL (addDocumentsL idGen (embTotal embedOf) st docs B).state =
      rowCountL st + docs.length ∧
    (addDocumentsL idGen (embTotal embedOf) st docs B).state.tableName =
      st.tableName ∧
    (addDocumentsL idGen (embTotal embedOf) st docs B).state.persistDirectory =
      st.persistDirectory := by
  cases hdocs : docs.isEmpty
  case true =>
    have : docs = [] := List.isEmpty_iff.mp hdocs
    subst this
    rw [addDocumentsL_nil]
    refine ⟨rfl, rfl, by simp, by simp, by simp [rowCountL], rfl, rfl⟩
  case false =>
    obtain ⟨he, hcalls, htext, hvec⟩ :=
      embedBatches_embTotal idGen embedOf (toBatches B docs) 0 0
    have hjoin : (toBatches B docs).flatten = docs :=
      toBatchesAux_join B hB docs.length docs (Nat.le_refl _)
    rw [hjoin] at htext hvec
    have hEq := addDocumentsL_eq_of_ok idGen (embTotal embedOf) st docs B hdocs he
    have herr : (addDocumentsL idGen (embTotal embedOf) st docs B).err = none := by
      rw [hEq]
    have hcalls2 : (addDocumentsL idGen (embTotal embedOf) st docs B).calls =
        (toBatches B docs).map List.length := by
      rw [hEq]; exact hcalls
    have hstate : (addDocumentsL idGen (embTotal embedOf) st docs B).state =
        { (if st.dbConnected then st else initializeL st) with
          storage := setTable (if st.dbConnected then st else initializeL st).storage
            (if st.dbConnected then st else initializeL st).tableName
            (if (if st.dbConnected then st else initializeL st).tableOpen then
              rowsL (if st.dbConnected then st else initializeL st) ++
                (embedBatches idGen (embTotal embedOf) 0 0 (toBatches B docs)).1
             else (embedBatches idGen (embTotal embedOf) 0 0 (toBatches B docs)).1)
          tableOpen := true } := by
      rw [hEq]
    have hn1 : (if st.dbConnected then st else initializeL st).tableName =
        st.tableName := by
      split
      · rfl
      · exact initializeL_tableName st
    have hd1 : (if st.dbConnected then st else initializeL st).persistDirectory =
        st.persistDirectory := by
      split
      · rfl
      · exact initializeL_persistDirectory st
    have hrows1 : rowsL (if st.dbConnected then st else initializeL st) = rowsL st := by
      split
      · rfl
      · exact rowsL_initializeL st
    have hrowsS : rowsL (addDocumentsL idGen (embTotal embedOf) st docs B).state =
        (if (if st.dbConnected then st else initializeL st).tableOpen then
          rowsL (if st.dbConnected then st else initializeL st) ++
            (embedBatches idGen (embTotal embedOf) 0 0 (toBatches B docs)).1
         else (embedBatches idGen (embTotal embedOf) 0 0 (toBatches B docs)).1) := by
      rw [hstate, rowsL_setTable]
    have htn : (addDocumentsL idGen (embTotal embedOf) st docs B).state.tableName =
        st.tableName := by
      rw [hstate]; exact hn1
    have htd : (addDocumentsL idGen (embTotal embedOf) st docs B).state.persistDirectory =
        st.persistDirectory := by
      rw [hstate]; exact hd1
    by_cases hopen : (if st.dbConnected then st else initializeL st).tableOpen = true
    · rw [if_pos hopen] at hrowsS
      rw [hrows1] at hrowsS
      have c3 : (rowsL (addDocumentsL idGen (embTotal embedOf) st docs B).state).map
          (fun r => r.text) =
          (rowsL st).map (fun r => r.text) ++ docs.map (fun d => d.pageContent) := by
        rw [hrowsS, List.map_append, htext]
      have c4 : (rowsL (addDocumentsL idGen (embTotal embedOf) st docs B).state).map
          (fun r => r.vector) =
          (rowsL st).map (fun r => r.vector) ++
            docs.map (fun d => embedOf d.pageContent) := by
        rw [hrowsS, List.map_append, hvec]
      have c5 : rowCountL (addDocumentsL idGen (embTotal embedOf) st docs B).state =
          rowCountL st + docs.length := by
        have h1 := congrArg List.length c3
        simpa [rowCountL, List.length_append] using h1
      exact ⟨herr, hcalls2, c3, c4, c5, htn, htd⟩
    · rw [if_neg hopen] at hrowsS
      have hopen0 : (if st.dbConnected then st else initializeL st).tableOpen = false := by
        cases hc : (if st.dbConnected then st else initializeL st).tableOpen
        · rfl
        · exact absurd hc hopen
      have hnone : lookupTable st.storage st.tableName = none := by
        by_cases hdb : st.dbConnected = true
        · rw [if_pos hdb] at hopen0
          rcases hInv hdb with h | h
          · rw [h] at hopen0; cases hopen0
          · exact h
        · have hdb2 : st.dbConnected = false := by
            cases hc : st.dbConnected
            · rfl
            · exact absurd hc hdb
          rw [hdb2] at hopen0
          simp only [Bool.false_eq_true, if_false, initializeL] at hopen0
          by_cases hl : (lookupTable st.storage st.tableName).isSome
          · simp [hl] at hopen0
          · exact Option.not_isSome_iff_eq_none.mp hl
      have hrowsOld : rowsL st = [] := by
        simp [rowsL, hnone]
      have c3 : (rowsL (addDocumentsL idGen (embTotal embedOf) st docs B).state).map
          (fun r => r.text) =
          (rowsL st).map (fun r => r.text) ++ docs.map (fun d => d.pageContent) := by
        rw [hrowsS, hrowsOld, htext]
        simp
      have c4 : (rowsL (addDocumentsL idGen (embTotal embedOf) st docs B).state).map
          (fun r => r.vector) =
          (rowsL st).map (fun r => r.vector) ++
            docs.map (fun d => embedOf d.pageContent) := by
        rw [hrowsS, hrowsOld, hvec]
        simp
      have c5 : rowCountL (addDocumentsL idGen (embTotal embedOf) st docs B).state =
          rowCountL st + docs.length := by
        have h1 := congrArg List.length c3
        simpa [rowCountL, List.length_append] using h1
      exact ⟨herr, hcalls2, c3, c4, c5, htn, htd⟩

theorem embedBatches_ok_length (idGen : Nat → String) (emb : Embedder)
    (hWF : ∀ i ts vs, emb i ts = Except.ok vs → vs.length = ts.length) :
    ∀ (bs : List (List Doc)) (callIdx idBase : Nat),
      (embedBatches idGen emb callIdx idBase bs).2.2 = none →
      (embedBatches idGen emb callIdx idBase bs).1.length = bs.flatten.length := by
  intro bs
  induction bs with
  | nil => intro callIdx idBase _; simp [embedBatches]
  | cons batch rest ih =>
    intro callIdx idBase hok
    rcases hemb : emb callIdx (batch.map (fun d => d.pageContent)) with er | vs
    · simp only [embedBatches, hemb] at hok
      exact Option.noConfusion hok
    · have hlen : vs.length = batch.length := by
        have := hWF callIdx (batch.map (fun d => d.pageContent)) vs hemb
        simpa using this
      simp only [embedBatches, hemb] at hok ⊢
      rw [buildRecords_length, hlen, Nat.min_self] at hok
      rw [List.length_append, List.flatten_cons, List.length_append,
        buildRecords_length, hlen, Nat.min_self, ih _ _ hok]

theorem addDocumentsL_err_state (idGen : Nat → String) (emb : Embedder)
    (st : LanceDBState) (docs : List Doc) (B : Nat)
    (her : (addDocumentsL idGen emb st docs B).err.isSome = true) :
    (addDocumentsL idGen emb st docs B).state.storage = st.storage ∧
    rowCountL (addDocumentsL idGen emb st docs B).state = rowCountL st := by
  cases hdocs : docs.isEmpty
  case true =>
    have : docs = [] := List.isEmpty_iff.mp hdocs
    subst this
    rw [addDocumentsL_nil]
    exact ⟨rfl, rfl⟩
  case false =>
    cases hre : (embedBatches idGen emb 0 0 (toBatches B docs)).2.2 with
    | none =>
      rw [addDocumentsL_eq_of_ok idGen emb st docs B hdocs hre] at her
      simp at her
    | some er =>
      rw [addDocumentsL_eq_of_err idGen emb st docs B er hdocs hre]
      constructor
      · show (if st.dbConnected then st else initializeL st).storage = st.storage
        split
        · rfl
        · exact initializeL_storage st
      · show rowCountL (if st.dbConnected then st else initializeL st) = rowCountL st
        unfold rowCountL
        rw [show rowsL (if st.dbConnected then st else initializeL st) = rowsL st by
          split
          · rfl
          · exact rowsL_initializeL st]

theorem addDocumentsL_ok_count (idGen : Nat → String) (emb : Embedder)
    (st : LanceDBState) (docs : List Doc) (B : Nat) (hB : 0 < B)
    (hWF : ∀ i ts vs, emb i ts = Except.ok vs → vs.length = ts.length)
    (hInv : st.dbConnected = true →
      st.tableOpen = true ∨ lookupTable st.storage st.tableName = none)
    (hok : (addDocumentsL idGen emb st docs B).err = none) :
    rowCountL (addDocumentsL idGen emb st docs B).state =
      rowCountL st + docs.length := by
  cases hdocs : docs.isEmpty
  case true =>
    have : docs = [] := List.isEmpty_iff.mp hdocs
    subst this
    rw [addDocumentsL_nil]
    simp
  case false =>
    cases hre : (embedBatches idGen emb 0 0 (toBatches B docs)).2.2 with
    | some er =>
      rw [addDocumentsL_eq_of_err idGen emb st docs B er hdocs hre] at hok
      simp at hok
    | none =>
      have hjoin : (toBatches B docs).flatten = docs :=
        toBatchesAux_join B hB docs.length docs (Nat.le_refl _)
      have hlen : (embedBatches idGen emb 0 0 (toBatches B docs)).1.length =
          docs.length := by
        rw [embedBatches_ok_length idGen emb hWF _ _ _ hre, hjoin]
      have hstate : (addDocumentsL idGen emb st docs B).state =
          { (if st.dbConnected then st else initializeL st) with
            storage := setTable (if st.dbConnected then st else initializeL st).storage
              (if st.dbConnected then st else initializeL st).tableName
              (if (if st.dbConnected then st else initializeL st).tableOpen then
                rowsL (if st.dbConnected then st else initializeL st) ++
                  (embedBatches idGen emb 0 0 (toBatches B docs)).1
               else (embedBatches idGen emb 0 0 (toBatches B docs)).1)
            tableOpen := true } := by
        rw [addDocumentsL_eq_of_ok idGen emb st docs B hdocs hre]
      have hrows1 : rowsL (if st.dbConnected then st else initializeL st) = rowsL st := by
        split
        · rfl
        · exact rowsL_initializeL st
      have hrowsS : rowsL (addDocumentsL idGen emb st docs B).state =
          (if (if st.dbConnected then st else initializeL st).tableOpen then
            rowsL (if st.dbConnected then st else initializeL st) ++
              (embedBatches idGen emb 0 0 (toBatches B docs)).1
           else (embedBatches idGen emb 0 0 (toBatches B docs)).1) := by
        rw [hstate, rowsL_setTable]
      by_cases hopen : (if st.dbConnected then st else initializeL st).tableOpen = true
      · rw [if_pos hopen, hrows1] at hrowsS
        unfold rowCountL
        rw [hrowsS, List.length_append, hlen]
      · rw [if_neg hopen] at hrowsS
        have hopen0 : (if st.dbConnected then st else initializeL st).tableOpen = false := by
          cases hc : (if st.dbConnected then st else initializeL st).tableOpen
          · rfl
          · exact absurd hc hopen
        have hnone : lookupTable st.storage st.tableName = none := by
          by_cases hdb : st.dbConnected = true
          · rw [if_pos hdb] at hopen0
            rcases hInv hdb with h | h
            · rw [h] at hopen0; cases hopen0
            · exact h
          · have hdb2 : st.dbConnected = false := by
              cases hc : st.dbConnected
              · rfl
              · exact absurd hc hdb
            rw [hdb2] at hopen0
            simp only [Bool.false_eq_true, if_false, initializeL] at hopen0
            by_cases hl : (lookupTable st.storage st.tableName).isSome
            · simp [hl] at hopen0
            · exact Option.not_isSome_iff_eq_none.mp hl
        have hrowsOld : rowsL st = [] := by
          simp [rowsL, hnone]
        unfold rowCountL
        rw [hrowsS, hrowsOld, hlen]
        simp

theorem length_insertByDist (x : VectorRecord × Int) :
    ∀ (l : List (VectorRecord × Int)), (insertByDist x l).length = l.length + 1 := by
  intro l
  induction l with
  | nil => rfl
  | cons y ys ih =>
    simp only [insertByDist]
    split
    · simp
    · simp [ih]

theorem length_sortByDist :
    ∀ (l : List (VectorRecord × Int)), (sortByDist l).length = l.length := by
  intro l
  induction l with
  | nil => rfl
  | cons y ys ih => simp [sortByDist, length_insertByDist, ih]

theorem length_vectorSearch (rows : List VectorRecord) (qv : Vec) (n : Nat) :
    (vectorSearch rows qv n).length = min n rows.length := by
  simp [vectorSearch, List.length_take, length_sortByDist]

theorem foldl_iterStep (env : GraphEnv) :
    ∀ (l : List (String × String × PageInfo)) (acc : List OneNotePage × List String),
      l.foldl (iterStep env) acc =
        (acc.1 ++ l.filterMap (fun t => (loadPageE env t.2.2 t.1 t.2.1).toOption),
         acc.2 ++ l.filterMap (fun t =>
           match loadPageE env t.2.2 t.1 t.2.1 with
           | Except.ok _ => none
           | Except.error e => some (t.2.2.title ++ " - " ++ e))) := by
  intro l
  induction l with
  | nil => intro acc; simp
  | cons t l ih =>
    intro acc
    rw [List.foldl_cons, ih]
    rcases hload : loadPageE env t.2.2 t.1 t.2.1 with e | p
    · simp [iterStep, hload, List.filterMap_cons, Except.toOption]
    · simp [iterStep, hload, List.filterMap_cons, Except.toOption]

/-! ## Claim theorems -/

/-- C1: for every list of N chunks and every batch size B > 0 (over any
reachable store state), `addDocuments` partitions the chunks into
ceil(N/B) batches of at most B, makes exactly one batch-embed call per
batch (the call trace lists one entry per batch, with the batch sizes),
assigns the returned vectors positionally (the persisted vectors are the
per-chunk embeddings in chunk order), and the row count grows by exactly
N — on an initially empty store it equals N regardless of B.  The last
two conjuncts check the concrete scenario: adding 120 chunks with
batchSize 50 makes exactly 3 batch-embed calls of sizes 50, 50, 20 and
yields a final row count of 120. -/
theorem claim_c1 (idGen : Nat → String) (embedOf : String → Vec)
    (st : LanceDBState) (docs : List Doc) (B : Nat) (hB : 0 < B)
    (hInv : st.dbConnected = true →
      st.tableOpen = true ∨ lookupTable st.storage st.tableName = none) :
    (addDocumentsL idGen (embTotal embedOf) st docs B).err = none ∧
    (addDocumentsL idGen (embTotal embedOf) st docs B).calls =
      (toBatches B docs).map List.length ∧
    (addDocumentsL idGen (embTotal embedOf) st docs B).calls.length =
      (docs.length + B - 1) / B ∧
    (∀ c ∈ (addDocumentsL idGen (embTotal embedOf) st docs B).calls, c ≤ B) ∧
    (rowsL (addDocumentsL idGen (embTotal embedOf) st docs B).state).map
        (fun r => r.vector) =
      (rowsL st).map (fun r => r.vector) ++
        docs.map (fun d => embedOf d.pageContent) ∧
    rowCountL (addDocumentsL idGen (embTotal embedOf) st docs B).state =
      rowCountL st + docs.length ∧
    (addDocumentsL idGen0 (embTotal embedOf0) (freshStoreL testSettings)
      (List.replicate 120 docA) 50).calls = [50, 50, 20] ∧
    rowCountL (addDocumentsL idGen0 (embTotal embedOf0) (freshStoreL testSettings)
      (List.replicate 120 docA) 50).state = 120 := by
  obtain ⟨herr, hcalls, _, hvec, hcount, _, _⟩ :=
    addDocumentsL_embTotal idGen embedOf st docs B hB hInv
  refine ⟨herr, hcalls, ?_, ?_, hvec, hcount, by decide, by decide⟩
  · rw [hcalls, List.length_map]
    exact toBatchesAux_count B hB docs.length docs (Nat.le_refl _)
  · intro c hc
    rw [hcalls] at hc
    obtain ⟨b, hb, hbc⟩ := List.mem_map.mp hc
    rw [← hbc]
    exact toBatchesAux_mem_le B docs.length docs b hb

/-- C1 witness: the theorem applied at a concrete input (120 identical
chunks, batch size 50, fresh store). -/
theorem claim_c1_witness :
    (addDocumentsL idGen0 (embTotal embedOf0) (freshStoreL testSettings)
      (List.replicate 120 docA) 50).calls.length = (120 + 50 - 1) / 50 :=
  (claim_c1 idGen0 embedOf0 (freshStoreL testSettings)
    (List.replicate 120 docA) 50 (by decide) (by decide)).2.2.1

/-- C2 counterexample: with two chunks and batchSize 1, the first
batch-embed call succeeds and the second fails, yet after the failing
`addDocuments` call the store holds 0 rows and no physical collection was
ever created — the previously completed batch was NOT committed,
contradicting the claim that the collection is created on the first
successful batch and completed batches are durable. -/
theorem claim_c2_counterexample :
    (addDocumentsL idGen0 embFailSecond (freshStoreL testSettings)
      [docA, docB] 1).calls = [1, 1] ∧
    (addDocumentsL idGen0 embFailSecond (freshStoreL testSettings)
      [docA, docB] 1).err = some (StoreError.embeddingProvider "provider down") ∧
    rowCountL (addDocumentsL idGen0 embFailSecond (freshStoreL testSettings)
      [docA, docB] 1).state = 0 ∧
    (addDocumentsL idGen0 embFailSecond (freshStoreL testSettings)
      [docA, docB] 1).state.tableOpen = false ∧
    ¬ rowCountL (addDocumentsL idGen0 embFailSecond (freshStoreL testSettings)
      [docA, docB] 1).state = 1 := by
  decide

/-- C2 amended: `addDocuments` embeds every batch before writing anything;
the accumulated records are committed in a single write after the last
batch, so an embedding-provider failure on any batch aborts the whole call
with the storage unchanged (no rows from this call are committed, not even
rows of previously completed batches), while a fully successful call
commits all N rows at once. -/
theorem claim_c2_amended (idGen : Nat → String) (emb : Embedder)
    (st : LanceDBState) (docs : List Doc) (B : Nat) (hB : 0 < B)
    (hWF : ∀ i ts vs, emb i ts = Except.ok vs → vs.length = ts.length)
    (hInv : st.dbConnected = true →
      st.tableOpen = true ∨ lookupTable st.storage st.tableName = none) :
    ((addDocumentsL idGen emb st docs B).err.isSome = true →
      (addDocumentsL idGen emb st docs B).state.storage = st.storage ∧
      rowCountL (addDocumentsL idGen emb st docs B).state = rowCountL st) ∧
    ((addDocumentsL idGen emb st docs B).err = none →
      rowCountL (addDocumentsL idGen emb st docs B).state =
        rowCountL st + docs.length) :=
  ⟨fun her => addDocumentsL_err_state idGen emb st docs B her,
   fun hok => addDocumentsL_ok_count idGen emb st docs B hB hWF hInv hok⟩

/-- C2 witness: the amended theorem applied at the concrete failing input
(two chunks, batch size 1, provider failing from the second call on). -/
theorem claim_c2_witness :
    rowCountL (addDocumentsL idGen0 embFailSecond (freshStoreL testSettings)
      [docA, docB] 1).state = rowCountL (freshStoreL testSettings) :=
  ((claim_c2_amended idGen0 embFailSecond (freshStoreL testSettings)
      [docA, docB] 1 (by decide)
      (fun i ts vs h => by
        by_cases hi : i = 0
        · simp only [embFailSecond, hi, if_pos, Except.ok.injEq] at h
          rw [← h]
          simp
        · simp [embFailSecond, hi] at h)
      (by decide)).1 (by decide)).2

/-- C3: for every query, calling `search` or `searchWithScores` on a store
whose physical collection has not been opened or created fails with the
not-initialized error — it is exactly this error, so the call neither
silently returns an empty result list nor fails any other way. -/
theorem claim_c3 (cfg : Settings) (qe : String → Vec) (st : LanceDBState)
    (q : String) (k : Option Nat) (h : st.tableOpen = false) :
    searchL cfg qe st q k = Except.error StoreError.notInitialized ∧
    searchWithScoresL cfg qe st q k = Except.error StoreError.notInitialized := by
  constructor
  · simp [searchL, h]
  · simp [searchWithScoresL, h]

/-- C3 witness: the theorem applied to a freshly constructed store with no
collection. -/
theorem claim_c3_witness :
    searchL testSettings qe0 (freshStoreL testSettings) "anything" none =
      Except.error StoreError.notInitialized ∧
    searchWithScoresL testSettings qe0 (freshStoreL testSettings) "anything" none =
      Except.error StoreError.notInitialized :=
  claim_c3 testSettings qe0 (freshStoreL testSettings) "anything" none rfl

/-- C4: deleteCollection is idempotent for both stores (a second call in a
row changes nothing and raises no error — the operations are total), and
after a delete `describe` reports zero rows and `search` fails with the
not-initialized error.  For the LanceDB store the hypothesis is the
process invariant that an open table handle implies an open connection;
the drop of the physical table follows the spec contract (idempotent
removal), since the third-party connection object is outside the
repository sources. -/
theorem claim_c4 (stH : HNSWState) (stL : LanceDBState) (cfg : Settings)
    (searchOf : List Doc → String → Nat → List Doc) (qe : String → Vec)
    (q : String) (k : Option Nat)
    (hInv : stL.tableOpen = true → stL.dbConnected = true) :
    deleteCollectionH (deleteCollectionH stH) = deleteCollectionH stH ∧
    (getCollectionStatsH (deleteCollectionH stH)).documentCount = 0 ∧
    searchH searchOf cfg (deleteCollectionH stH) q k =
      Except.error StoreError.notInitialized ∧
    deleteCollectionL (deleteCollectionL stL) = deleteCollectionL stL ∧
    (getCollectionStatsL (deleteCollectionL stL)).documentCount = 0 ∧
    searchL cfg qe (deleteCollectionL stL) q k =
      Except.error StoreError.notInitialized := by
  have hLopen : (deleteCollectionL stL).tableOpen = false := by
    by_cases hdb : stL.dbConnected = true
    · simp [deleteCollectionL, hdb]
    · have hdb2 : stL.dbConnected = false := by
        cases hc : stL.dbConnected
        · rfl
        · exact absurd hc hdb
      have htab : stL.tableOpen = false := by
        cases hc : stL.tableOpen
        · rfl
        · rw [hInv hc] at hdb2; cases hdb2
      simp [deleteCollectionL, hdb2, htab]
  refine ⟨rfl, by simp [deleteCollectionH, getCollectionStatsH], rfl, ?_, ?_, ?_⟩
  · by_cases hdb : stL.dbConnected = true
    · simp [deleteCollectionL, hdb, removeTable_idem]
    · have hdb2 : stL.dbConnected = false := by
        cases hc : stL.dbConnected
        · rfl
        · exact absurd hc hdb
      simp [deleteCollectionL, hdb2]
  · simp [getCollectionStatsL, hLopen]
  · simp [searchL, hLopen]

/-- C4 witness: the theorem applied to a loaded HNSWLib store and a
LanceDB store with an open two-row table. -/
theorem claim_c4_witness :
    (getCollectionStatsL (deleteCollectionL stW)).documentCount = 0 ∧
    searchL testSettings qe0 (deleteCollectionL stW) "q" none =
      Except.error StoreError.notInitialized :=
  ⟨(claim_c4 (newHNSWStore testSettings (some [docA])) stW testSettings
      searchOf0 qe0 "q" none (by decide)).2.2.2.2.1,
   (claim_c4 (newHNSWStore testSettings (some [docA])) stW testSettings
      searchOf0 qe0 "q" none (by decide)).2.2.2.2.2⟩

/-- C5: calling addDocuments with an empty chunk list is a no-op — it
returns without an error, makes no embedding-provider call (empty call
trace), leaves the state (hence the physical collection) untouched, and
`isReady` stays false if it was false. -/
theorem claim_c5 (idGen : Nat → String) (emb : Embedder) (st : LanceDBState)
    (B : Nat) :
    addDocumentsL idGen emb st [] B =
      { state := st, calls := [], err := none } ∧
    (isReadyL st = false → isReadyL (addDocumentsL idGen emb st [] B).state = false) := by
  refine ⟨addDocumentsL_nil idGen emb st B, fun h => ?_⟩
  rw [addDocumentsL_nil]
  exact h

/-- C5 witness: the theorem applied to a fresh (not ready) store. -/
theorem claim_c5_witness :
    isReadyL (addDocumentsL idGen0 (embTotal embedOf0) (freshStoreL testSettings)
      [] 50).state = false :=
  (claim_c5 idGen0 (embTotal embedOf0) (freshStoreL testSettings) 50).2 (by decide)

theorem addDocumentsL_embTotal_tableOpen (idGen : Nat → String)
    (embedOf : String → Vec) (st : LanceDBState) (docs : List Doc) (B : Nat)
    (hne : docs.isEmpty = false) :
    (addDocumentsL idGen (embTotal embedOf) st docs B).state.tableOpen = true := by
  obtain ⟨he, _, _, _⟩ := embedBatches_embTotal idGen embedOf (toBatches B docs) 0 0
  rw [addDocumentsL_eq_of_ok idGen (embTotal embedOf) st docs B hne he]

/-- C6 counterexample: an HNSWLib store holding exactly one persisted
chunk reports a row count of -1 (unknown) from `describe`, not the number
of persisted chunks (1), refuting the claim that the reported row count
equals the number of persisted chunks whenever the store is initialized. -/
theorem claim_c6_counterexample :
    (addDocumentsH (newHNSWStore testSettings none) [docA]).vectorstore =
      some [docA] ∧
    (getCollectionStatsH
      (addDocumentsH (newHNSWStore testSettings none) [docA])).documentCount = -1 ∧
    ¬ (getCollectionStatsH
      (addDocumentsH (newHNSWStore testSettings none) [docA])).documentCount = 1 := by
  decide

/-- C6 amended: `describe` always succeeds (both stores' stats operations
are total) and returns the collection name, the storage location, and a
row count that is 0 when the store is uninitialized; when initialized,
the LanceDB store reports the number of persisted chunks, while the
HNSWLib store reports -1 (count unknown). -/
theorem claim_c6_amended (cfg : Settings) (idGen : Nat → String)
    (embedOf : String → Vec) (docs : List Doc) (B : Nat) (hB : 0 < B) :
    getCollectionStatsL (freshStoreL cfg) =
      { collectionName := cfg.vectorstore.collectionName
        documentCount := 0
        persistDirectory := cfg.vectorstore.persistDirectory } ∧
    (getCollectionStatsL (addDocumentsL idGen (embTotal embedOf)
        (freshStoreL cfg) docs B).state).documentCount = (docs.length : Int) ∧
    (getCollectionStatsL (addDocumentsL idGen (embTotal embedOf)
        (freshStoreL cfg) docs B).state).collectionName =
      cfg.vectorstore.collectionName ∧
    (getCollectionStatsL (addDocumentsL idGen (embTotal embedOf)
        (freshStoreL cfg) docs B).state).persistDirectory =
      cfg.vectorstore.persistDirectory ∧
    getCollectionStatsH (newHNSWStore cfg none) =
      { collectionName := cfg.vectorstore.collectionName
        documentCount := 0
        persistDirectory := cfg.vectorstore.persistDirectory } ∧
    (docs ≠ [] →
      (getCollectionStatsH
        (addDocumentsH (newHNSWStore cfg none) docs)).documentCount = -1) := by
  have hInv : (freshStoreL cfg).dbConnected = true →
      (freshStoreL cfg).tableOpen = true ∨
      lookupTable (freshStoreL cfg).storage (freshStoreL cfg).tableName = none :=
    fun h => Bool.noConfusion h
  obtain ⟨_, _, _, _, hcount, hname, hdir⟩ :=
    addDocumentsL_embTotal idGen embedOf (freshStoreL cfg) docs B hB hInv
  refine ⟨rfl, ?_, ?_, ?_, rfl, ?_⟩
  · cases hd : docs.isEmpty
    case true =>
      have : docs = [] := List.isEmpty_iff.mp hd
      subst this
      rw [addDocumentsL_nil]
      rfl
    case false =>
      have hopen := addDocumentsL_embTotal_tableOpen idGen embedOf
        (freshStoreL cfg) docs B hd
      simp only [getCollectionStatsL, hopen, if_pos]
      rw [hcount]
      simp [rowCountL, rowsL, freshStoreL, newLanceDBStore, lookupTable]
  · simp only [getCollectionStatsL]
    rw [hname]
    rfl
  · simp only [getCollectionStatsL]
    rw [hdir]
    rfl
  · intro hne
    have hd : docs.isEmpty = false := by
      cases hdi : docs.isEmpty
      · rfl
      · exact absurd (List.isEmpty_iff.mp hdi) hne
    simp [addDocumentsH, getCollectionStatsH, hd]

/-- C6 witness: the amended theorem applied at a one-chunk input for both
stores. -/
theorem claim_c6_witness :
    (getCollectionStatsL (addDocumentsL idGen0 (embTotal embedOf0)
        (freshStoreL testSettings) [docA] 10).state).documentCount =
      (([docA].length : Nat) : Int) ∧
    (getCollectionStatsH
      (addDocumentsH (newHNSWStore testSettings none) [docA])).documentCount = -1 :=
  ⟨(claim_c6_amended testSettings idGen0 embedOf0 [docA] 10 (by decide)).2.1,
   (claim_c6_amended testSettings idGen0 embedOf0 [docA] 10
      (by decide)).2.2.2.2.2 (by decide)⟩

/-- C7 counterexample: with the default-provider API key missing from the
configuration, constructing the QAChain already fails with the
not-configured error — the failure is raised by the constructor (which
eagerly creates the model binding), not at the `ask` invocation, so the
claim that the failure is raised at `ask` and not earlier is false. -/
theorem claim_c7_counterexample :
    qaChainNew testSettings LLMType.openai none 0 none =
      Except.error QAError.notConfigured ∧
    createLLM testSettings LLMType.openai none 0 =
      Except.error QAError.notConfigured :=
  ⟨rfl, rfl⟩

/-- C7 amended: when no model binding exists and no default model can be
constructed (the default provider's API key is missing), the failure is a
not-configured error raised at QAChain construction time — `createLLM`
runs inside the constructor, so `ask` is never reachable on such a
configuration. -/
theorem claim_c7_amended (cfg : Settings) (mn : Option String) (t : Int)
    (pt : Option String) (h : cfg.openai.apiKey = "") :
    createLLM cfg LLMType.openai mn t = Except.error QAError.notConfigured ∧
    qaChainNew cfg LLMType.openai mn t pt = Except.error QAError.notConfigured := by
  constructor
  · simp [createLLM, h]
  · simp [qaChainNew, createLLM, h]

/-- C7 witness: the amended theorem applied to the default configuration
with the missing key. -/
theorem claim_c7_witness :
    qaChainNew testSettings LLMType.openai none 0 (some "custom template") =
      Except.error QAError.notConfigured :=
  (claim_c7_amended testSettings none 0 (some "custom template") rfl).2

/-- C8: during ingestion traversal, the yielded pages are exactly the
successfully loaded pages in traversal order (a page whose content fetch
or conversion fails is skipped), each failure is recorded in the log
(one entry per failing page), and every page whose load succeeds is
yielded no matter where it sits in the traversal — so a single failing
page never aborts the run and all pages after it are still yielded. -/
theorem claim_c8 (env : GraphEnv) (nbF secF : Option String) :
    (iterPages env nbF secF).1 =
      (traversalInfos env nbF secF).filterMap
        (fun t => (loadPageE env t.2.2 t.1 t.2.1).toOption) ∧
    (iterPages env nbF secF).2 =
      (traversalInfos env nbF secF).filterMap (fun t =>
        match loadPageE env t.2.2 t.1 t.2.1 with
        | Except.ok _ => none
        | Except.error e => some (t.2.2.title ++ " - " ++ e)) ∧
    (∀ t ∈ traversalInfos env nbF secF, ∀ p,
      loadPageE env t.2.2 t.1 t.2.1 = Except.ok p →
      p ∈ (iterPages env nbF secF).1) := by
  have h := foldl_iterStep env (traversalInfos env nbF secF) ([], [])
  have h1 : (iterPages env nbF secF).1 =
      (traversalInfos env nbF secF).filterMap
        (fun t => (loadPageE env t.2.2 t.1 t.2.1).toOption) := by
    unfold iterPages
    rw [h]
    simp
  refine ⟨h1, ?_, ?_⟩
  · unfold iterPages
    rw [h]
    simp
  · intro t ht p hp
    rw [h1]
    exact List.mem_filterMap.mpr ⟨t, ht, by rw [hp]; rfl⟩

/-- C8 witness: in the concrete three-page environment whose second page
fails to fetch, the failure is recorded and the third page is still
yielded (applied through the theorem). -/
theorem claim_c8_witness :
    loadPageE cEnv pageInfo2 "Work" "Notes" =
      Except.error "request failed 500" ∧
    page3 ∈ (iterPages cEnv none none).1 := by
  refine ⟨rfl, ?_⟩
  exact (claim_c8 cEnv none none).2.2 ("Work", "Notes", pageInfo3)
    (by decide) page3 rfl

/-- C9: `initialize` is idempotent — for every store state two calls in
sequence produce the same state as one, and in particular `describe`
returns the same output after two calls as after one. -/
theorem claim_c9 (st : LanceDBState) :
    initializeL (initializeL st) = initializeL st ∧
    getCollectionStatsL (initializeL (initializeL st)) =
      getCollectionStatsL (initializeL st) := by
  have h : initializeL (initializeL st) = initializeL st := by
    by_cases hl : (lookupTable st.storage st.tableName).isSome
    · simp [initializeL, hl]
    · simp [initializeL, hl]
  exact ⟨h, by rw [h]⟩

/-- C10: a falsy k (zero) passed to `search` or `searchWithScores` is
treated exactly like an omitted k: the configured retrieval width is used
instead, so the query returns min(retrievalK, rowCount) results — never
the zero results a literal reading of k = 0 would give. -/
theorem claim_c10 (cfg : Settings) (qe : String → Vec) (st : LanceDBState)
    (q : String) (h : st.tableOpen = true) :
    searchL cfg qe st q (some 0) = searchL cfg qe st q none ∧
    searchWithScoresL cfg qe st q (some 0) = searchWithScoresL cfg qe st q none ∧
    (∀ res, searchL cfg qe st q (some 0) = Except.ok res →
      res.length = min cfg.app.retrievalK (rowCountL st) ∧
      (0 < cfg.app.retrievalK → 0 < rowCountL st → res ≠ [])) := by
  refine ⟨rfl, rfl, ?_⟩
  intro res hres
  simp only [searchL, h, Bool.not_true, Bool.false_eq_true, if_false,
    Except.ok.injEq] at hres
  have hlen : res.length = min cfg.app.retrievalK (rowCountL st) := by
    rw [← hres, List.length_map, length_vectorSearch]
    rfl
  refine ⟨hlen, fun hk hr => ?_⟩
  intro hnil
  rw [hnil] at hlen
  simp only [List.length_nil] at hlen
  omega

/-- C10 witness: the theorem applied to a concrete open store with two
rows and retrieval width 4; k = 0 behaves like an omitted k and two
results come back. -/
theorem claim_c10_witness :
    searchL testSettings qe0 stW "query" (some 0) =
      searchL testSettings qe0 stW "query" none ∧
    [docA, docB].length = min testSettings.app.retrievalK (rowCountL stW) ∧
    [docA, docB] ≠ [] := by
  refine ⟨(claim_c10 testSettings qe0 stW "query" rfl).1, ?_, ?_⟩
  · exact ((claim_c10 testSettings qe0 stW "query" rfl).2.2 [docA, docB] rfl).1
  · exact ((claim_c10 testSettings qe0 stW "query" rfl).2.2 [docA, docB] rfl).2
      (by decide) (by decide)
